import Mathlib

/-!
Shallow embedding of the ICP saving smart contract (Azle / TypeScript).

The repository holds three successive revisions of the same canister:

* `VA` — `src/src/index.ts`: admin + whitelist authorization and a
  time-locked withdrawal (`hasTimePassed`).
* `VB` — first document of `src/unnamed/part_000`: no authorization checks;
  `updateSaving`, `fundSaving`, `withdrawSaving` and `transferSaving` stamp
  `updatedAt`.
* `VC` — second document of `src/unnamed/part_000`: per-record `owner`
  field with ownership authorization; no time lock; `fundSaving` and
  `withdrawSaving` do not touch `updatedAt`.

Modelling conventions: the Internet Computer environment is passed in
explicitly (the caller identity, `ic.time()` and the generated uuid become
parameters); principals are modelled by their textual form, since the source
compares them with `toString()`; JavaScript numbers are modelled as exact
rationals (float rounding is not modelled); `nat64` timestamps are `ℕ`;
`StableBTreeMap` is an association list with first-match semantics.
-/

/-- The ASCII apostrophe character, spelled via its code point, used in some
source error messages. -/
def apos : String := String.singleton (Char.ofNat 39)

/-- The `Result` sum type of the azle framework: a value is either a success
`ok` or a typed failure `err`, never both. -/
inductive Result (α ε : Type) where
  | ok : α → Result α ε
  | err : ε → Result α ε
deriving Repr, DecidableEq

namespace Result

def isErr {α ε : Type} : Result α ε → Bool
  | .err _ => true
  | .ok _ => false

def isOk {α ε : Type} : Result α ε → Bool
  | .ok _ => true
  | .err _ => false

end Result

/-- The persistent key/value substrate (`StableBTreeMap<string, Saving>`),
modelled as an association list with first-match lookup. -/
abbrev StableBTreeMap (V : Type) := List (String × V)

namespace StableBTreeMap

def get {V : Type} : StableBTreeMap V → String → Option V
  | [], _ => none
  | (k, v) :: s, key => if k = key then some v else get s key

def insert {V : Type} : StableBTreeMap V → String → V → StableBTreeMap V
  | [], key, val => [(key, val)]
  | (k, v) :: s, key, val =>
    if k = key then (key, val) :: s else (k, v) :: insert s key val

def erase {V : Type} : StableBTreeMap V → String → StableBTreeMap V
  | [], _ => []
  | (k, v) :: s, key => if k = key then s else (k, v) :: erase s key

/-- `remove` returns the removed record (if any) together with the new map;
on a missing key the map is untouched. -/
def remove {V : Type} (s : StableBTreeMap V) (key : String) :
    Option V × StableBTreeMap V :=
  match get s key with
  | some v => (some v, erase s key)
  | none => (none, s)

def values {V : Type} (s : StableBTreeMap V) : List V := s.map (·.2)

end StableBTreeMap

/-- The `Saving` record of the `VA` and `VB` revisions (no `owner` field). -/
structure Saving where
  id : String
  username : String
  specifiedYear : ℚ
  amount : ℚ
  noOfDays : ℕ
  createdAt : ℕ
  updatedAt : Option ℕ
deriving Repr, DecidableEq

/-- The creation payload of the `VA` and `VB` revisions. -/
structure SavingPayload where
  username : String
  specifiedYear : ℚ
  amount : ℚ
  noOfDays : ℕ
deriving Repr, DecidableEq

/-- `calculateApy`, identical in `src/src/index.ts` (lines 101-109) and in the
first document of `src/unnamed/part_000` (lines 80-88): it returns
`Ok((days / specifiedyear) * amount)` unconditionally — there is no check for
`specifiedyear = 0`, and the store is never consulted (the function does not
even take it). Division is modelled on `ℚ`. -/
def calculateApy (days amount specifiedyear : ℚ) : Result ℚ String :=
  let quoficientOfDays := days / specifiedyear
  Result.ok (quoficientOfDays * amount)

namespace VA

/-- The process-wide configuration written by `init` in `src/src/index.ts`
(lines 44-49): the admin principal and the whitelisted accounts. -/
structure Config where
  adminPrincipal : String
  whitelistedAccounts : List String
deriving Repr, DecidableEq

/-- `isWhitelisted` (lines 52-58). -/
def isWhitelisted (cfg : Config) (id : String) : Bool :=
  if cfg.whitelistedAccounts.contains id then true else false

/-- `hasTimePassed` (lines 92-97). Note that the source returns
`ic.time() < endTimeInNanoseconds`, i.e. `true` exactly while the lock is
still running — the opposite of what the name says. We model it verbatim,
with `ic.time()` passed in as `now`. -/
def hasTimePassed (now startTime : ℕ) (noOfDays : ℕ) : Bool :=
  let nanoseconds := noOfDays * 24 * 60 * 60 * 1000 * 1000 * 1000
  let endTimeInNanoseconds := startTime + nanoseconds
  decide (now < endTimeInNanoseconds)

/-- `getAllSavings` (lines 61-64). -/
def getAllSavings (store : StableBTreeMap Saving) : Result (List Saving) String :=
  Result.ok store.values

/-- `createSaving` (lines 68-78), with the generated uuid and `ic.time()`
passed in. -/
def createSaving (uuid : String) (now : ℕ) (payload : SavingPayload)
    (store : StableBTreeMap Saving) :
    Result Saving String × StableBTreeMap Saving :=
  let saving : Saving :=
    { id := uuid, username := payload.username,
      specifiedYear := payload.specifiedYear, amount := payload.amount,
      noOfDays := payload.noOfDays, createdAt := now, updatedAt := none }
  (Result.ok saving, store.insert saving.id saving)

/-- `getSavingById` (lines 82-88). -/
def getSavingById (id : String) (store : StableBTreeMap Saving) :
    Result Saving String :=
  match store.get id with
  | some saving => Result.ok saving
  | none => Result.err ("saving with id=" ++ id ++ " not found")

/-- `deleteSaving` (lines 113-127): the admin check comes first, before the
store is consulted. -/
def deleteSaving (caller : String) (cfg : Config) (id : String)
    (store : StableBTreeMap Saving) :
    Result Saving String × StableBTreeMap Saving :=
  if caller ≠ cfg.adminPrincipal then
    (Result.err "You are not authorized to delete a saving", store)
  else
    match store.remove id with
    | (some saving, store') => (Result.ok saving, store')
    | (none, store') =>
      (Result.err ("couldn" ++ apos ++ "t delete saving with id=" ++ id ++ "."),
        store')

/-- `fundSaving` (lines 131-147). The source inserts under `saving.id` where
`saving` is the `Result` wrapper returned by `getSavingById` — a property that
does not exist on that type; we read it as the looked-up record's `id`, the
evident intent (the later revisions write `id` and `updatedSaving.id` here). -/
def fundSaving (id : String) (amount : ℚ) (store : StableBTreeMap Saving) :
    Result Saving String × StableBTreeMap Saving :=
  match getSavingById id store with
  | Result.err _ => (Result.err ("saving with id=" ++ id ++ " not found."), store)
  | Result.ok saving =>
    let updatedSaving := { saving with amount := saving.amount + amount }
    (Result.ok updatedSaving, store.insert saving.id updatedSaving)

/-- `withdrawSaving` (lines 151-175): authorization (admin or whitelisted)
first, then lookup, then the time check, then the write. The source spreads
`saving.unwrap()` where `saving` is the already-matched record; we read it as
the record itself. -/
def withdrawSaving (caller : String) (cfg : Config) (now : ℕ) (id : String)
    (store : StableBTreeMap Saving) :
    Result Saving String × StableBTreeMap Saving :=
  if caller = cfg.adminPrincipal ∨ isWhitelisted cfg caller then
    match store.get id with
    | none => (Result.err ("Unable to withdraw savings with id=" ++ id), store)
    | some saving =>
      if ¬ hasTimePassed now saving.createdAt saving.noOfDays then
        (Result.err "Time has not yet passed. Your funds are still locked", store)
      else
        let updatedSaving := { saving with amount := 0 }
        (Result.ok updatedSaving, store.insert saving.id updatedSaving)
  else
    (Result.err "You are not authorized to withdraw a saving", store)

end VA

namespace VB

/-- `getAllSavings` (`part_000` lines 38-41). -/
def getAllSavings (store : StableBTreeMap Saving) : Result (List Saving) String :=
  Result.ok store.values

/-- `createSaving` (`part_000` lines 48-58). -/
def createSaving (uuid : String) (now : ℕ) (payload : SavingPayload)
    (store : StableBTreeMap Saving) :
    Result Saving String × StableBTreeMap Saving :=
  let saving : Saving :=
    { id := uuid, username := payload.username,
      specifiedYear := payload.specifiedYear, amount := payload.amount,
      noOfDays := payload.noOfDays, createdAt := now, updatedAt := none }
  (Result.ok saving, store.insert saving.id saving)

/-- `getSavingById` (`part_000` lines 65-71). -/
def getSavingById (id : String) (store : StableBTreeMap Saving) :
    Result Saving String :=
  match store.get id with
  | some saving => Result.ok saving
  | none => Result.err ("Saving with id=" ++ id ++ " not found")

/-- `deleteSaving` (`part_000` lines 95-104): no authorization check in this
revision. -/
def deleteSaving (id : String) (store : StableBTreeMap Saving) :
    Result Saving String × StableBTreeMap Saving :=
  match store.remove id with
  | (some saving, store') => (Result.ok saving, store')
  | (none, store') =>
    (Result.err ("Couldn" ++ apos ++ "t delete saving with id=" ++ id ++ "."),
      store')

/-- `updateSaving` (`part_000` lines 112-132): merges the payload fields into
the record and stamps `updatedAt`. -/
def updateSaving (id : String) (updatedPayload : SavingPayload) (now : ℕ)
    (store : StableBTreeMap Saving) :
    Result Saving String × StableBTreeMap Saving :=
  match getSavingById id store with
  | Result.err _ => (Result.err ("Saving with id=" ++ id ++ " not found."), store)
  | Result.ok saving =>
    let updatedSaving :=
      { saving with
        username := updatedPayload.username,
        specifiedYear := updatedPayload.specifiedYear,
        amount := updatedPayload.amount,
        noOfDays := updatedPayload.noOfDays,
        updatedAt := some now }
    (Result.ok updatedSaving, store.insert id updatedSaving)

/-- `fundSaving` (`part_000` lines 140-157): adds to `amount` and stamps
`updatedAt`. -/
def fundSaving (id : String) (amount : ℚ) (now : ℕ)
    (store : StableBTreeMap Saving) :
    Result Saving String × StableBTreeMap Saving :=
  match getSavingById id store with
  | Result.err _ => (Result.err ("Saving with id=" ++ id ++ " not found."), store)
  | Result.ok saving =>
    let updatedSaving :=
      { saving with amount := saving.amount + amount, updatedAt := some now }
    (Result.ok updatedSaving, store.insert id updatedSaving)

/-- `withdrawSaving` (`part_000` lines 164-181): sets `amount` to 0 and stamps
`updatedAt`; this revision has no time lock and no authorization. -/
def withdrawSaving (id : String) (now : ℕ) (store : StableBTreeMap Saving) :
    Result Saving String × StableBTreeMap Saving :=
  match getSavingById id store with
  | Result.err _ => (Result.err ("Saving with id=" ++ id ++ " not found."), store)
  | Result.ok saving =>
    let updatedSaving := { saving with amount := 0, updatedAt := some now }
    (Result.ok updatedSaving, store.insert id updatedSaving)

/-- `transferSaving` (`part_000` lines 189-209): replaces `username` and
stamps `updatedAt`. -/
def transferSaving (id : String) (recipient : String) (now : ℕ)
    (store : StableBTreeMap Saving) :
    Result Saving String × StableBTreeMap Saving :=
  match getSavingById id store with
  | Result.err _ => (Result.err ("Saving with id=" ++ id ++ " not found."), store)
  | Result.ok saving =>
    let updatedSaving := { saving with username := recipient, updatedAt := some now }
    (Result.ok updatedSaving, store.insert id updatedSaving)

end VB

namespace VC

/-- The `Saving` record of the ownership revision (`part_000` lines 239-248):
it carries the `owner` principal; `specifiedYear` and `noOfDays` are `nat16`,
`amount` is `float32` (modelled as `ℚ`). -/
structure Saving where
  id : String
  owner : String
  username : String
  specifiedYear : ℕ
  amount : ℚ
  noOfDays : ℕ
  createdAt : ℕ
  updatedAt : Option ℕ
deriving Repr, DecidableEq

/-- The creation payload of the ownership revision (`part_000` lines 250-255). -/
structure SavingPayload where
  username : String
  specifiedYear : ℕ
  amount : ℚ
  noOfDays : ℕ
deriving Repr, DecidableEq

/-- `createSaving` (`part_000` lines 263-274): `owner` is set to the caller. -/
def createSaving (caller uuid : String) (now : ℕ) (payload : SavingPayload)
    (store : StableBTreeMap Saving) :
    Result Saving String × StableBTreeMap Saving :=
  let saving : Saving :=
    { id := uuid, owner := caller, username := payload.username,
      specifiedYear := payload.specifiedYear, amount := payload.amount,
      noOfDays := payload.noOfDays, createdAt := now, updatedAt := none }
  (Result.ok saving, store.insert saving.id saving)

/-- `getSavingById` (`part_000` lines 280-291): only the owner may view the
record; a non-owner caller gets `Unauthorized caller`. -/
def getSavingById (caller id : String) (store : StableBTreeMap Saving) :
    Result Saving String :=
  match store.get id with
  | some saving =>
    if saving.owner = caller then Result.ok saving
    else Result.err "Unauthorized caller"
  | none => Result.err ("saving with id=" ++ id ++ " not found")

/-- `deleteSaving` (`part_000` lines 294-308): looks the record up directly in
the store, so a non-owner caller is told `Unauthorized caller`. -/
def deleteSaving (caller id : String) (store : StableBTreeMap Saving) :
    Result Saving String × StableBTreeMap Saving :=
  match store.get id with
  | some saving =>
    if saving.owner ≠ caller then (Result.err "Unauthorized caller", store)
    else (Result.ok saving, (store.remove id).2)
  | none =>
    (Result.err ("couldn" ++ apos ++ "t delete saving with id=" ++ id ++ "."),
      store)

/-- `fundSaving` (`part_000` lines 311-331): the lookup goes through the
public `getSavingById`, which already rejects non-owner callers, so the inner
ownership re-check is unreachable and a non-owner caller falls through to the
final not-found error. The write goes to `updatedSaving.id`. -/
def fundSaving (caller id : String) (amount : ℚ) (store : StableBTreeMap Saving) :
    Result Saving String × StableBTreeMap Saving :=
  match getSavingById caller id store with
  | Result.ok saving =>
    if saving.owner ≠ caller then (Result.err "Unauthorized caller", store)
    else
      let updatedSaving := { saving with amount := saving.amount + amount }
      (Result.ok updatedSaving, store.insert updatedSaving.id updatedSaving)
  | Result.err _ => (Result.err ("saving with id=" ++ id ++ " not found."), store)

/-- `withdrawSaving` (`part_000` lines 334-354): same shape as `fundSaving`,
setting `amount` to 0; no time lock and no `updatedAt` stamp in this
revision. -/
def withdrawSaving (caller id : String) (store : StableBTreeMap Saving) :
    Result Saving String × StableBTreeMap Saving :=
  match getSavingById caller id store with
  | Result.ok saving =>
    if saving.owner ≠ caller then (Result.err "Unauthorized caller", store)
    else
      let updatedSaving := { saving with amount := 0 }
      (Result.ok updatedSaving, store.insert updatedSaving.id updatedSaving)
  | Result.err _ => (Result.err ("saving with id=" ++ id ++ " not found."), store)

/-- One mutating ledger call of the ownership revision (`fundSaving` and
`withdrawSaving` are the mutating operations this revision has besides
creation and deletion), for stating properties of call sequences. -/
inductive Op where
  | fund (caller id : String) (amount : ℚ)
  | withdraw (caller id : String)
deriving Repr, DecidableEq

/-- The store left behind by one call. -/
def applyOp (store : StableBTreeMap Saving) : Op → StableBTreeMap Saving
  | Op.fund caller id amount => (fundSaving caller id amount store).2
  | Op.withdraw caller id => (withdrawSaving caller id store).2

/-- The store left behind by a sequence of calls. -/
def applyOps (store : StableBTreeMap Saving) : List Op → StableBTreeMap Saving
  | [] => store
  | op :: ops => applyOps (applyOp store op) ops

/-- Every stored record sits under its own `id`. This holds of every store the
canister builds, since all its inserts use the record's `id` as the key. -/
def WellKeyed (store : StableBTreeMap Saving) : Prop :=
  ∀ k saving, store.get k = some saving → saving.id = k

/-- A sample record and single-record store of the ownership revision:
`s1` is owned by principal `P1`. -/
def sampleRec : Saving :=
  { id := "s1", owner := "P1", username := "alice", specifiedYear := 1,
    amount := 100, noOfDays := 30, createdAt := 0, updatedAt := none }

def sampleStore : StableBTreeMap Saving := [("s1", sampleRec)]

end VC

namespace VB

/-- One mutating-after-creation ledger call of the first `part_000` revision. -/
inductive Op where
  | update (id : String) (payload : SavingPayload) (now : ℕ)
  | fund (id : String) (amount : ℚ) (now : ℕ)
  | withdraw (id : String) (now : ℕ)
  | transfer (id recipient : String) (now : ℕ)
deriving Repr, DecidableEq

def applyOp (store : StableBTreeMap Saving) : Op → StableBTreeMap Saving
  | Op.update id payload now => (updateSaving id payload now store).2
  | Op.fund id amount now => (fundSaving id amount now store).2
  | Op.withdraw id now => (withdrawSaving id now store).2
  | Op.transfer id recipient now => (transferSaving id recipient now store).2

def applyOps (store : StableBTreeMap Saving) : List Op → StableBTreeMap Saving
  | [] => store
  | op :: ops => applyOps (applyOp store op) ops

/-- A full ledger call of the first `part_000` revision, creation and deletion
included, for reachability statements. -/
inductive LOp where
  | create (uuid : String) (now : ℕ) (payload : SavingPayload)
  | update (id : String) (payload : SavingPayload) (now : ℕ)
  | fund (id : String) (amount : ℚ) (now : ℕ)
  | withdraw (id : String) (now : ℕ)
  | transfer (id recipient : String) (now : ℕ)
  | delete (id : String)
deriving Repr, DecidableEq

def applyLOp (store : StableBTreeMap Saving) : LOp → StableBTreeMap Saving
  | LOp.create uuid now payload => (createSaving uuid now payload store).2
  | LOp.update id payload now => (updateSaving id payload now store).2
  | LOp.fund id amount now => (fundSaving id amount now store).2
  | LOp.withdraw id now => (withdrawSaving id now store).2
  | LOp.transfer id recipient now => (transferSaving id recipient now store).2
  | LOp.delete id => (deleteSaving id store).2

def applyLOps (store : StableBTreeMap Saving) : List LOp → StableBTreeMap Saving
  | [] => store
  | op :: ops => applyLOps (applyLOp store op) ops

/-- A call respecting the input contract of the specification: payload amounts
and funding deltas are non-negative (the code itself never validates them). -/
def ValidLOp : LOp → Prop
  | LOp.create _ _ payload => 0 ≤ payload.amount
  | LOp.update _ payload _ => 0 ≤ payload.amount
  | LOp.fund _ amount _ => 0 ≤ amount
  | _ => True

/-- Every record in the store has a non-negative amount. -/
def NonNeg (store : StableBTreeMap Saving) : Prop :=
  ∀ p ∈ store, 0 ≤ p.2.amount

end VB

/-- A sample configuration and single-record store for concrete evaluations:
the admin is `P-admin`, `P-wl` is whitelisted, and `s1` holds a record created
at time 0 with a 1-day lock. -/
def sampleCfg : VA.Config :=
  { adminPrincipal := "P-admin", whitelistedAccounts := ["P-wl"] }

def sampleRecA : Saving :=
  { id := "s1", username := "alice", specifiedYear := 1, amount := 100,
    noOfDays := 1, createdAt := 0, updatedAt := none }

def sampleStoreA : StableBTreeMap Saving := [("s1", sampleRecA)]

/-! ### Lemmas about the store -/

namespace StableBTreeMap

theorem get_insert {V : Type} (s : StableBTreeMap V) (k key : String) (v : V) :
    (s.insert k v).get key = if k = key then some v else s.get key := by
  induction s with
  | nil => simp [insert, get]
  | cons p s ih =>
    obtain ⟨k', v'⟩ := p
    by_cases h1 : k' = k <;> by_cases h2 : k' = key <;> by_cases h3 : k = key <;>
      simp_all [insert, get]

theorem get_insert_self {V : Type} (s : StableBTreeMap V) (k : String) (v : V) :
    (s.insert k v).get k = some v := by
  simp [get_insert]

theorem erase_sublist {V : Type} (s : StableBTreeMap V) (key : String) :
    List.Sublist (s.erase key) s := by
  induction s with
  | nil => simp [erase]
  | cons p s ih =>
    obtain ⟨k', v'⟩ := p
    by_cases h : k' = key
    · simp only [erase, if_pos h]
      exact List.sublist_cons_self _ _
    · simp only [erase, if_neg h]
      exact List.Sublist.cons₂ _ ih

theorem get_mem {V : Type} {s : StableBTreeMap V} {k : String} {v : V}
    (h : s.get k = some v) : (k, v) ∈ s := by
  induction s with
  | nil => simp [get] at h
  | cons p s ih =>
    obtain ⟨k', v'⟩ := p
    by_cases hk : k' = k
    · subst hk
      simp [get] at h
      simp [h]
    · simp [get, hk] at h
      simp [ih h]

theorem mem_insert {V : Type} {s : StableBTreeMap V} {k : String} {v : V} :
    ∀ p ∈ s.insert k v, p = (k, v) ∨ p ∈ s := by
  induction s with
  | nil => simp [insert]
  | cons q s ih =>
    obtain ⟨k', v'⟩ := q
    by_cases h : k' = k
    · intro p hp
      simp [insert, h] at hp
      rcases hp with hp | hp
      · exact Or.inl hp
      · exact Or.inr (List.mem_cons_of_mem _ hp)
    · intro p hp
      simp only [insert, if_neg h] at hp
      rcases List.mem_cons.mp hp with hp | hp
      · exact Or.inr (by simp [hp])
      · rcases ih p hp with hp' | hp'
        · exact Or.inl hp'
        · exact Or.inr (List.mem_cons_of_mem _ hp')

end StableBTreeMap

/-! ### Lemmas about strings (to tell the error messages apart) -/

theorem data_append (a b : String) : (a ++ b).data = a.data ++ b.data := by
  cases a; cases b; rfl

theorem data_head_append (a b : String) (c : Char)
    (h : a.data.head? = some c) : (a ++ b).data.head? = some c := by
  rw [data_append]
  cases ha : a.data with
  | nil => rw [ha] at h; cases h
  | cons hd tl =>
    rw [ha] at h
    rw [List.cons_append]
    simpa using h

theorem string_ne_of_head {a b : String} {c d : Char}
    (ha : a.data.head? = some c) (hb : b.data.head? = some d) (hcd : c ≠ d) :
    a ≠ b := by
  intro h
  subst h
  rw [ha] at hb
  exact hcd (Option.some.inj hb)

/-! ### Claim C1 -/

/-- C1: the claim states that, for an authorized caller, `withdrawSaving`
fails with the Locked error while
`now < createdAt + noOfDays * 86400000000000` and succeeds at or after that
instant. The code does the opposite: `hasTimePassed` returns
`now < endTime`, and `withdrawSaving` rejects when that is `false`. Concretely,
on a record created at time 0 with a 1-day lock, the admin's call at `now = 0`
(strictly inside the lock period) succeeds and zeroes the amount, while the
call at `now = 86400000000000` (the expiry instant, where the claim demands
success) fails with the "still locked" error. -/
theorem C1_withdraw_time_check_inverted :
    (VA.withdrawSaving "P-admin" sampleCfg 0 "s1" sampleStoreA).1 =
      Result.ok { sampleRecA with amount := 0 } ∧
    ((VA.withdrawSaving "P-admin" sampleCfg 0 "s1" sampleStoreA).2).get "s1" =
      some { sampleRecA with amount := 0 } ∧
    (VA.withdrawSaving "P-admin" sampleCfg 86400000000000 "s1" sampleStoreA).1 =
      Result.err "Time has not yet passed. Your funds are still locked" ∧
    (0 : ℕ) < sampleRecA.createdAt + sampleRecA.noOfDays * 86400000000000 ∧
    sampleRecA.createdAt + sampleRecA.noOfDays * 86400000000000 ≤ 86400000000000 := by
  refine ⟨by decide, by decide, by decide, by decide, by decide⟩

/-! ### Claim C4 -/

/-- C4, counterexample: the claim states that `calculateApy` fails with an
InvalidInput/DivisionByZero error when `specifiedYear = 0`; in fact the
function has no zero check and returns a success value on that input
(`calculateApy(30, 100, 0)` is `Ok`, not an error). -/
theorem C4_counterexample :
    (calculateApy 30 100 0).isErr = false := by decide

/-- C4 (amended): `calculateApy(days, amount, specifiedYear)` returns the
success value `(days / specifiedYear) * amount` for every input — including
`specifiedYear = 0`, where it still succeeds instead of failing (JavaScript
division never throws; the rational model returns the success constructor on
the same branch). It takes no store argument at all, so it never reads or
writes the record store. -/
theorem C4_amended_calculateApy :
    ∀ days amount specifiedyear : ℚ,
      calculateApy days amount specifiedyear =
        Result.ok ((days / specifiedyear) * amount) := by
  intro days amount specifiedyear
  rfl

/-! ### Claim C9 -/

/-- C9: round trip — for every payload, caller, time, uuid and prior store,
`createSaving(payload)` succeeds with a record whose `username`,
`specifiedYear`, `amount` and `noOfDays` are the payload's, whose `owner` is
the creating caller, whose `createdAt` is the current time and whose
`updatedAt` is absent; and `getSavingById` on the returned id by the same
caller then returns exactly that record. -/
theorem C9_create_get_round_trip :
    ∀ (caller uuid : String) (now : ℕ) (payload : VC.SavingPayload)
      (store : StableBTreeMap VC.Saving),
      (VC.createSaving caller uuid now payload store).1 =
        Result.ok
          { id := uuid, owner := caller, username := payload.username,
            specifiedYear := payload.specifiedYear, amount := payload.amount,
            noOfDays := payload.noOfDays, createdAt := now, updatedAt := none } ∧
      VC.getSavingById caller uuid ((VC.createSaving caller uuid now payload store).2) =
        Result.ok
          { id := uuid, owner := caller, username := payload.username,
            specifiedYear := payload.specifiedYear, amount := payload.amount,
            noOfDays := payload.noOfDays, createdAt := now, updatedAt := none } := by
  intro caller uuid now payload store
  constructor
  · rfl
  · simp [VC.getSavingById, VC.createSaving, StableBTreeMap.get_insert]

/-! ### Claim C2 -/

/-- C2, counterexample: the claim states that in the ownership revision
`fundSaving` fails with Unauthorized for every caller other than the record's
owner. On the store holding `s1` owned by `P1`, the call
`fundSaving("s1", 5)` by `P2` is indeed rejected, but with the not-found
error `saving with id=s1 not found.` rather than `Unauthorized caller`: the
ownership check inside `getSavingById` masks the record, and the unauthorized
branch of `fundSaving` itself is unreachable. -/
theorem C2_counterexample :
    (VC.fundSaving "P2" "s1" 5 VC.sampleStore).1 =
      Result.err ("saving with id=s1 not found.") ∧
    (decide ((VC.fundSaving "P2" "s1" 5 VC.sampleStore).1 =
      Result.err "Unauthorized caller")) = false ∧
    VC.sampleStore.get "s1" = some VC.sampleRec ∧
    (VC.sampleRec.owner == "P2") = false := by
  refine ⟨by decide, by decide, by decide, by decide⟩

/-- C2 (amended): in the admin+whitelist revision, `deleteSaving` fails with
the Unauthorized error for every caller other than the configured admin, and
`withdrawSaving` fails with the Unauthorized error for every caller that is
neither the admin nor whitelisted. In the ownership revision, `deleteSaving`
fails with `Unauthorized caller` for every caller other than the record's
owner, while `fundSaving` and `withdrawSaving` also reject every such caller
but report the not-found error (`saving with id=... not found.`) instead of
Unauthorized, because the ownership check inside `getSavingById` hides the
record from them. -/
theorem C2_amended_authorization :
    (∀ caller cfg id store, caller ≠ cfg.adminPrincipal →
      (VA.deleteSaving caller cfg id store).1 =
        Result.err "You are not authorized to delete a saving") ∧
    (∀ caller cfg now id store, caller ≠ cfg.adminPrincipal →
      cfg.whitelistedAccounts.contains caller = false →
      (VA.withdrawSaving caller cfg now id store).1 =
        Result.err "You are not authorized to withdraw a saving") ∧
    (∀ caller id store (saving : VC.Saving), store.get id = some saving →
      saving.owner ≠ caller →
      (VC.deleteSaving caller id store).1 = Result.err "Unauthorized caller") ∧
    (∀ caller id amount store (saving : VC.Saving), store.get id = some saving →
      saving.owner ≠ caller →
      (VC.fundSaving caller id amount store).1 =
        Result.err ("saving with id=" ++ id ++ " not found.")) ∧
    (∀ caller id store (saving : VC.Saving), store.get id = some saving →
      saving.owner ≠ caller →
      (VC.withdrawSaving caller id store).1 =
        Result.err ("saving with id=" ++ id ++ " not found.")) := by
  refine ⟨?_, ?_, ?_, ?_, ?_⟩
  · intro caller cfg id store h
    simp [VA.deleteSaving, h]
  · intro caller cfg now id store h1 h2
    have h3 : ¬ (caller ∈ cfg.whitelistedAccounts) := by simpa using h2
    simp [VA.withdrawSaving, VA.isWhitelisted, h1, h3]
  · intro caller id store saving hget how
    simp [VC.deleteSaving, hget, how]
  · intro caller id amount store saving hget how
    simp [VC.fundSaving, VC.getSavingById, hget, how]
  · intro caller id store saving hget how
    simp [VC.withdrawSaving, VC.getSavingById, hget, how]

/-- Witness for C2 (amended), at the concrete configuration and stores of the
samples, with caller `P2` (neither admin, nor whitelisted, nor owner). -/
theorem C2_amended_authorization_witness :
    (VA.deleteSaving "P2" sampleCfg "s1" sampleStoreA).1 =
      Result.err "You are not authorized to delete a saving" ∧
    (VA.withdrawSaving "P2" sampleCfg 0 "s1" sampleStoreA).1 =
      Result.err "You are not authorized to withdraw a saving" ∧
    (VC.deleteSaving "P2" "s1" VC.sampleStore).1 =
      Result.err "Unauthorized caller" ∧
    (VC.fundSaving "P2" "s1" 7 VC.sampleStore).1 =
      Result.err ("saving with id=" ++ "s1" ++ " not found.") ∧
    (VC.withdrawSaving "P2" "s1" VC.sampleStore).1 =
      Result.err ("saving with id=" ++ "s1" ++ " not found.") :=
  ⟨C2_amended_authorization.1 "P2" sampleCfg "s1" sampleStoreA (by decide),
   C2_amended_authorization.2.1 "P2" sampleCfg 0 "s1" sampleStoreA
     (by decide) (by decide),
   C2_amended_authorization.2.2.1 "P2" "s1" VC.sampleStore VC.sampleRec
     (by decide) (by decide),
   C2_amended_authorization.2.2.2.1 "P2" "s1" 7 VC.sampleStore VC.sampleRec
     (by decide) (by decide),
   C2_amended_authorization.2.2.2.2 "P2" "s1" VC.sampleStore VC.sampleRec
     (by decide) (by decide)⟩

/-! ### Claim C3 -/

/-- C3: failure atomicity — for every mutating operation of every revision and
every input, a failure result comes with the store exactly as it was (each
conjunct says: either the call did not fail, or its resulting store equals the
input store); and no call returns both a success and a failure, since `ok` and
`err` are distinct constructors of the `Result` sum type (final conjunct).
The read-only operations (`getSavingById`, `getAllSavings`, `calculateApy`)
take the store, if at all, without returning one, so they cannot write. -/
theorem C3_failure_atomicity :
    (∀ uuid now payload store,
      (VA.createSaving uuid now payload store).1.isErr = false) ∧
    (∀ caller cfg id store,
      (VA.deleteSaving caller cfg id store).1.isErr = false ∨
      (VA.deleteSaving caller cfg id store).2 = store) ∧
    (∀ id amount store,
      (VA.fundSaving id amount store).1.isErr = false ∨
      (VA.fundSaving id amount store).2 = store) ∧
    (∀ caller cfg now id store,
      (VA.withdrawSaving caller cfg now id store).1.isErr = false ∨
      (VA.withdrawSaving caller cfg now id store).2 = store) ∧
    (∀ uuid now payload store,
      (VB.createSaving uuid now payload store).1.isErr = false) ∧
    (∀ id store,
      (VB.deleteSaving id store).1.isErr = false ∨
      (VB.deleteSaving id store).2 = store) ∧
    (∀ id payload now store,
      (VB.updateSaving id payload now store).1.isErr = false ∨
      (VB.updateSaving id payload now store).2 = store) ∧
    (∀ id amount now store,
      (VB.fundSaving id amount now store).1.isErr = false ∨
      (VB.fundSaving id amount now store).2 = store) ∧
    (∀ id now store,
      (VB.withdrawSaving id now store).1.isErr = false ∨
      (VB.withdrawSaving id now store).2 = store) ∧
    (∀ id recipient now store,
      (VB.transferSaving id recipient now store).1.isErr = false ∨
      (VB.transferSaving id recipient now store).2 = store) ∧
    (∀ caller uuid now payload store,
      (VC.createSaving caller uuid now payload store).1.isErr = false) ∧
    (∀ caller id store,
      (VC.deleteSaving caller id store).1.isErr = false ∨
      (VC.deleteSaving caller id store).2 = store) ∧
    (∀ caller id amount store,
      (VC.fundSaving caller id amount store).1.isErr = false ∨
      (VC.fundSaving caller id amount store).2 = store) ∧
    (∀ caller id store,
      (VC.withdrawSaving caller id store).1.isErr = false ∨
      (VC.withdrawSaving caller id store).2 = store) ∧
    (∀ (α ε : Type) (r : Result α ε), r.isErr = !r.isOk) := by
  refine ⟨?_, ?_, ?_, ?_, ?_, ?_, ?_, ?_, ?_, ?_, ?_, ?_, ?_, ?_, ?_⟩
  · intro uuid now payload store
    rfl
  · intro caller cfg id store
    by_cases h : caller = cfg.adminPrincipal
    · cases hg : store.get id <;>
        simp [VA.deleteSaving, StableBTreeMap.remove, h, hg, Result.isErr]
    · simp [VA.deleteSaving, h, Result.isErr]
  · intro id amount store
    cases hg : store.get id <;>
      simp [VA.fundSaving, VA.getSavingById, hg, Result.isErr]
  · intro caller cfg now id store
    by_cases hauth : caller = cfg.adminPrincipal ∨ VA.isWhitelisted cfg caller
    · cases hg : store.get id with
      | none => simp [VA.withdrawSaving, hauth, hg, Result.isErr]
      | some saving =>
        by_cases ht : VA.hasTimePassed now saving.createdAt saving.noOfDays <;>
          simp [VA.withdrawSaving, hauth, hg, ht, Result.isErr]
    · simp [VA.withdrawSaving, hauth, Result.isErr]
  · intro uuid now payload store
    rfl
  · intro id store
    cases hg : store.get id <;>
      simp [VB.deleteSaving, StableBTreeMap.remove, hg, Result.isErr]
  · intro id payload now store
    cases hg : store.get id <;>
      simp [VB.updateSaving, VB.getSavingById, hg, Result.isErr]
  · intro id amount now store
    cases hg : store.get id <;>
      simp [VB.fundSaving, VB.getSavingById, hg, Result.isErr]
  · intro id now store
    cases hg : store.get id <;>
      simp [VB.withdrawSaving, VB.getSavingById, hg, Result.isErr]
  · intro id recipient now store
    cases hg : store.get id <;>
      simp [VB.transferSaving, VB.getSavingById, hg, Result.isErr]
  · intro caller uuid now payload store
    rfl
  · intro caller id store
    cases hg : store.get id with
    | none => simp [VC.deleteSaving, hg, Result.isErr]
    | some saving =>
      by_cases ho : saving.owner = caller <;>
        simp [VC.deleteSaving, hg, ho, Result.isErr]
  · intro caller id amount store
    cases hg : store.get id with
    | none => simp [VC.fundSaving, VC.getSavingById, hg, Result.isErr]
    | some saving =>
      by_cases ho : saving.owner = caller <;>
        simp [VC.fundSaving, VC.getSavingById, hg, ho, Result.isErr]
  · intro caller id store
    cases hg : store.get id with
    | none => simp [VC.withdrawSaving, VC.getSavingById, hg, Result.isErr]
    | some saving =>
      by_cases ho : saving.owner = caller <;>
        simp [VC.withdrawSaving, VC.getSavingById, hg, ho, Result.isErr]
  · intro α ε r
    cases r <;> rfl


/-! ### Claim C5 -/

/-- C5: in every revision, for an existing record and a non-negative delta, an
authorized `fundSaving(id, delta)` call returns the record with
`amount = previous amount + delta` and leaves exactly that record stored under
the same id; on a missing id it fails with the not-found error and leaves the
store untouched. (In the admin+whitelist and first `part_000` revisions every
caller may fund; in the ownership revision the owner may. The admin+whitelist
and ownership conjuncts assume the record is keyed under its own `id`, which
is how the canister stores every record.) -/
theorem C5_fundSaving_adds_amount :
    (∀ id amount now store (saving : Saving), 0 ≤ amount →
      store.get id = some saving →
      (VB.fundSaving id amount now store).1 =
        Result.ok
          { saving with
            amount := saving.amount + amount, updatedAt := some now } ∧
      ((VB.fundSaving id amount now store).2).get id =
        some
          { saving with
            amount := saving.amount + amount, updatedAt := some now }) ∧
    (∀ id amount now store, store.get id = none →
      VB.fundSaving id amount now store =
        (Result.err ("Saving with id=" ++ id ++ " not found."), store)) ∧
    (∀ id amount store (saving : Saving), 0 ≤ amount →
      store.get id = some saving → saving.id = id →
      (VA.fundSaving id amount store).1 =
        Result.ok { saving with amount := saving.amount + amount } ∧
      ((VA.fundSaving id amount store).2).get id =
        some { saving with amount := saving.amount + amount }) ∧
    (∀ id amount store, store.get id = none →
      VA.fundSaving id amount store =
        (Result.err ("saving with id=" ++ id ++ " not found."), store)) ∧
    (∀ caller id amount store (saving : VC.Saving), 0 ≤ amount →
      store.get id = some saving → saving.id = id → saving.owner = caller →
      (VC.fundSaving caller id amount store).1 =
        Result.ok { saving with amount := saving.amount + amount } ∧
      ((VC.fundSaving caller id amount store).2).get id =
        some { saving with amount := saving.amount + amount }) ∧
    (∀ caller id amount store, store.get id = none →
      VC.fundSaving caller id amount store =
        (Result.err ("saving with id=" ++ id ++ " not found."), store)) := by
  refine ⟨?_, ?_, ?_, ?_, ?_, ?_⟩
  · intro id amount now store saving _ hget
    constructor
    · simp [VB.fundSaving, VB.getSavingById, hget]
    · simp [VB.fundSaving, VB.getSavingById, hget, StableBTreeMap.get_insert]
  · intro id amount now store hget
    simp [VB.fundSaving, VB.getSavingById, hget]
  · intro id amount store saving _ hget hid
    constructor
    · simp [VA.fundSaving, VA.getSavingById, hget]
    · simp [VA.fundSaving, VA.getSavingById, hget, hid,
        StableBTreeMap.get_insert]
  · intro id amount store hget
    simp [VA.fundSaving, VA.getSavingById, hget]
  · intro caller id amount store saving _ hget hid how
    constructor
    · simp [VC.fundSaving, VC.getSavingById, hget, how]
    · simp [VC.fundSaving, VC.getSavingById, hget, how, hid,
        StableBTreeMap.get_insert]
  · intro caller id amount store hget
    simp [VC.fundSaving, VC.getSavingById, hget]

/-- Witness for C5 at the sample stores: funding `s1` with delta 50. -/
theorem C5_fundSaving_adds_amount_witness :
    (VB.fundSaving "s1" 50 7 sampleStoreA).1 =
      Result.ok
        { sampleRecA with
          amount := sampleRecA.amount + 50, updatedAt := some 7 } ∧
    VB.fundSaving "s1" 50 7 [] =
      (Result.err ("Saving with id=" ++ "s1" ++ " not found."), []) ∧
    (VA.fundSaving "s1" 50 sampleStoreA).1 =
      Result.ok { sampleRecA with amount := sampleRecA.amount + 50 } ∧
    VA.fundSaving "s1" 50 [] =
      (Result.err ("saving with id=" ++ "s1" ++ " not found."), []) ∧
    (VC.fundSaving "P1" "s1" 50 VC.sampleStore).1 =
      Result.ok { VC.sampleRec with amount := VC.sampleRec.amount + 50 } ∧
    VC.fundSaving "P1" "s1" 50 [] =
      (Result.err ("saving with id=" ++ "s1" ++ " not found."), []) :=
  ⟨(C5_fundSaving_adds_amount.1 "s1" 50 7 sampleStoreA sampleRecA
      (by decide) rfl).1,
   C5_fundSaving_adds_amount.2.1 "s1" 50 7 [] rfl,
   (C5_fundSaving_adds_amount.2.2.1 "s1" 50 sampleStoreA sampleRecA
      (by decide) rfl rfl).1,
   C5_fundSaving_adds_amount.2.2.2.1 "s1" 50 [] rfl,
   (C5_fundSaving_adds_amount.2.2.2.2.1 "P1" "s1" 50 VC.sampleStore VC.sampleRec
      (by decide) rfl rfl rfl).1,
   C5_fundSaving_adds_amount.2.2.2.2.2 "P1" "s1" 50 [] rfl⟩

/-! ### Claim C6 -/

/-- C6, counterexample: the claim states that every successful mutating
operation after creation sets `updatedAt` to the current time. In the
ownership revision, the owner's successful `fundSaving("s1", 5)` on a
never-mutated record returns and stores the funded record with `updatedAt`
still absent. -/
theorem C6_counterexample :
    (VC.fundSaving "P1" "s1" 5 VC.sampleStore).1 =
      Result.ok { VC.sampleRec with amount := VC.sampleRec.amount + 5 } ∧
    ((VC.fundSaving "P1" "s1" 5 VC.sampleStore).2).get "s1" =
      some { VC.sampleRec with amount := VC.sampleRec.amount + 5 } ∧
    ({ VC.sampleRec with amount := VC.sampleRec.amount + 5 } : VC.Saving).updatedAt =
      none := by
  refine ⟨rfl, rfl, rfl⟩

/-- C6 (amended): in the first `part_000` revision, every successful
`updateSaving`, `fundSaving`, `withdrawSaving` and `transferSaving` sets the
record's `updatedAt` to the current time. In the admin+whitelist and
ownership revisions, however, `fundSaving` and `withdrawSaving` leave
`updatedAt` exactly as it was, so there a record that has been mutated since
creation can still have `updatedAt` absent, and the absence of `updatedAt`
does not characterize never-mutated records. -/
theorem C6_amended_updatedAt :
    (∀ id payload now store (saving : Saving), store.get id = some saving →
      (VB.updateSaving id payload now store).1 =
        Result.ok
          { saving with
            username := payload.username,
            specifiedYear := payload.specifiedYear,
            amount := payload.amount, noOfDays := payload.noOfDays,
            updatedAt := some now }) ∧
    (∀ id amount now store (saving : Saving), store.get id = some saving →
      (VB.fundSaving id amount now store).1 =
        Result.ok
          { saving with
            amount := saving.amount + amount, updatedAt := some now }) ∧
    (∀ id now store (saving : Saving), store.get id = some saving →
      (VB.withdrawSaving id now store).1 =
        Result.ok { saving with amount := 0, updatedAt := some now }) ∧
    (∀ id recipient now store (saving : Saving), store.get id = some saving →
      (VB.transferSaving id recipient now store).1 =
        Result.ok
          { saving with
            username := recipient, updatedAt := some now }) ∧
    (∀ id amount store (saving r' : Saving), store.get id = some saving →
      (VA.fundSaving id amount store).1 = Result.ok r' →
      r'.updatedAt = saving.updatedAt) ∧
    (∀ caller cfg now id store (saving r' : Saving), store.get id = some saving →
      (VA.withdrawSaving caller cfg now id store).1 = Result.ok r' →
      r'.updatedAt = saving.updatedAt) ∧
    (∀ caller id amount store (saving r' : VC.Saving),
      store.get id = some saving →
      (VC.fundSaving caller id amount store).1 = Result.ok r' →
      r'.updatedAt = saving.updatedAt) ∧
    (∀ caller id store (saving r' : VC.Saving),
      store.get id = some saving →
      (VC.withdrawSaving caller id store).1 = Result.ok r' →
      r'.updatedAt = saving.updatedAt) := by
  refine ⟨?_, ?_, ?_, ?_, ?_, ?_, ?_, ?_⟩
  · intro id payload now store saving hget
    simp [VB.updateSaving, VB.getSavingById, hget]
  · intro id amount now store saving hget
    simp [VB.fundSaving, VB.getSavingById, hget]
  · intro id now store saving hget
    simp [VB.withdrawSaving, VB.getSavingById, hget]
  · intro id recipient now store saving hget
    simp [VB.transferSaving, VB.getSavingById, hget]
  · intro id amount store saving r' hget hok
    simp [VA.fundSaving, VA.getSavingById, hget] at hok
    rw [← hok]
  · intro caller cfg now id store saving r' hget hok
    by_cases hauth : caller = cfg.adminPrincipal ∨ VA.isWhitelisted cfg caller
    · by_cases ht : VA.hasTimePassed now saving.createdAt saving.noOfDays
      · simp [VA.withdrawSaving, hauth, hget, ht] at hok
        rw [← hok]
      · simp [VA.withdrawSaving, hauth, hget, ht] at hok
    · simp [VA.withdrawSaving, hauth] at hok
  · intro caller id amount store saving r' hget hok
    by_cases ho : saving.owner = caller
    · simp [VC.fundSaving, VC.getSavingById, hget, ho] at hok
      rw [← hok]
    · simp [VC.fundSaving, VC.getSavingById, hget, ho] at hok
  · intro caller id store saving r' hget hok
    by_cases ho : saving.owner = caller
    · simp [VC.withdrawSaving, VC.getSavingById, hget, ho] at hok
      rw [← hok]
    · simp [VC.withdrawSaving, VC.getSavingById, hget, ho] at hok

/-- Witness for C6 (amended) at the sample stores. -/
theorem C6_amended_updatedAt_witness :
    (VB.updateSaving "s1"
        { username := "bob", specifiedYear := 2, amount := 3, noOfDays := 4 }
        9 sampleStoreA).1 =
      Result.ok
        { sampleRecA with
          username := "bob", specifiedYear := 2, amount := 3, noOfDays := 4,
          updatedAt := some 9 } ∧
    (VB.fundSaving "s1" 5 9 sampleStoreA).1 =
      Result.ok
        { sampleRecA with
          amount := sampleRecA.amount + 5, updatedAt := some 9 } ∧
    (VB.withdrawSaving "s1" 9 sampleStoreA).1 =
      Result.ok { sampleRecA with amount := 0, updatedAt := some 9 } ∧
    (VB.transferSaving "s1" "carol" 9 sampleStoreA).1 =
      Result.ok
        { sampleRecA with
          username := "carol", updatedAt := some 9 } ∧
    ({ sampleRecA with amount := sampleRecA.amount + 5 } : Saving).updatedAt =
      sampleRecA.updatedAt ∧
    ({ sampleRecA with amount := 0 } : Saving).updatedAt =
      sampleRecA.updatedAt ∧
    ({ VC.sampleRec with amount := VC.sampleRec.amount + 5 } : VC.Saving).updatedAt =
      VC.sampleRec.updatedAt ∧
    ({ VC.sampleRec with amount := 0 } : VC.Saving).updatedAt =
      VC.sampleRec.updatedAt :=
  ⟨C6_amended_updatedAt.1 "s1"
     { username := "bob", specifiedYear := 2, amount := 3, noOfDays := 4 }
     9 sampleStoreA sampleRecA rfl,
   C6_amended_updatedAt.2.1 "s1" 5 9 sampleStoreA sampleRecA rfl,
   C6_amended_updatedAt.2.2.1 "s1" 9 sampleStoreA sampleRecA rfl,
   C6_amended_updatedAt.2.2.2.1 "s1" "carol" 9 sampleStoreA sampleRecA rfl,
   C6_amended_updatedAt.2.2.2.2.1 "s1" 5 sampleStoreA sampleRecA
     { sampleRecA with amount := sampleRecA.amount + 5 } rfl rfl,
   C6_amended_updatedAt.2.2.2.2.2.1 "P-admin" sampleCfg 0 "s1"
     sampleStoreA sampleRecA { sampleRecA with amount := 0 } rfl (by decide),
   C6_amended_updatedAt.2.2.2.2.2.2.1 "P1" "s1" 5 VC.sampleStore VC.sampleRec
     { VC.sampleRec with amount := VC.sampleRec.amount + 5 } rfl rfl,
   C6_amended_updatedAt.2.2.2.2.2.2.2 "P1" "s1" VC.sampleStore VC.sampleRec
     { VC.sampleRec with amount := 0 } rfl rfl⟩

/-! ### Preservation lemmas for call sequences -/

theorem VC_applyOp_shape (store : StableBTreeMap VC.Saving) (op : VC.Op) :
    VC.applyOp store op = store ∨
    ∃ (id0 : String) (saving u : VC.Saving), store.get id0 = some saving ∧
      u.id = saving.id ∧ u.owner = saving.owner ∧
      u.createdAt = saving.createdAt ∧
      VC.applyOp store op = store.insert saving.id u := by
  cases op with
  | fund caller id0 amount =>
    cases hg : store.get id0 with
    | none => exact Or.inl (by simp [VC.applyOp, VC.fundSaving, VC.getSavingById, hg])
    | some saving =>
      by_cases ho : saving.owner = caller
      · refine Or.inr ⟨id0, saving,
          { saving with amount := saving.amount + amount }, hg, rfl, rfl, rfl, ?_⟩
        simp [VC.applyOp, VC.fundSaving, VC.getSavingById, hg, ho]
      · exact Or.inl (by simp [VC.applyOp, VC.fundSaving, VC.getSavingById, hg, ho])
  | withdraw caller id0 =>
    cases hg : store.get id0 with
    | none =>
      exact Or.inl (by simp [VC.applyOp, VC.withdrawSaving, VC.getSavingById, hg])
    | some saving =>
      by_cases ho : saving.owner = caller
      · refine Or.inr ⟨id0, saving,
          { saving with amount := 0 }, hg, rfl, rfl, rfl, ?_⟩
        simp [VC.applyOp, VC.withdrawSaving, VC.getSavingById, hg, ho]
      · exact Or.inl
          (by simp [VC.applyOp, VC.withdrawSaving, VC.getSavingById, hg, ho])

theorem VC_applyOp_wellKeyed (store : StableBTreeMap VC.Saving) (op : VC.Op)
    (hwk : VC.WellKeyed store) : VC.WellKeyed (VC.applyOp store op) := by
  rcases VC_applyOp_shape store op with h | ⟨id0, saving, u, hg, huid, _, _, happ⟩
  · rwa [h]
  · rw [happ]
    intro k r hr
    rw [StableBTreeMap.get_insert] at hr
    by_cases hk : saving.id = k
    · rw [if_pos hk] at hr
      cases Option.some.inj hr
      rw [huid]
      exact hk
    · rw [if_neg hk] at hr
      exact hwk k r hr

theorem VC_applyOp_preserves (store : StableBTreeMap VC.Saving) (op : VC.Op)
    (hwk : VC.WellKeyed store) :
    ∀ id r, (VC.applyOp store op).get id = some r →
      ∃ saving, store.get id = some saving ∧ r.owner = saving.owner ∧
        r.createdAt = saving.createdAt := by
  rcases VC_applyOp_shape store op with h | ⟨id0, saving, u, hg, _, hown, hcr, happ⟩
  · intro id r hr
    rw [h] at hr
    exact ⟨r, hr, rfl, rfl⟩
  · intro id r hr
    rw [happ, StableBTreeMap.get_insert] at hr
    by_cases hk : saving.id = id
    · rw [if_pos hk] at hr
      cases Option.some.inj hr
      have hid0 : saving.id = id0 := hwk id0 saving hg
      refine ⟨saving, ?_, hown, hcr⟩
      rw [← hk, hid0]
      exact hg
    · rw [if_neg hk] at hr
      exact ⟨r, hr, rfl, rfl⟩

theorem VC_applyOps_wellKeyed (ops : List VC.Op) :
    ∀ store, VC.WellKeyed store → VC.WellKeyed (VC.applyOps store ops) := by
  induction ops with
  | nil => intro store h; exact h
  | cons op ops ih =>
    intro store h
    exact ih (VC.applyOp store op) (VC_applyOp_wellKeyed store op h)

theorem VC_applyOps_preserves (ops : List VC.Op) :
    ∀ store, VC.WellKeyed store →
      ∀ id r, (VC.applyOps store ops).get id = some r →
        ∃ saving, store.get id = some saving ∧ r.owner = saving.owner ∧
          r.createdAt = saving.createdAt := by
  induction ops with
  | nil =>
    intro store _ id r hr
    exact ⟨r, hr, rfl, rfl⟩
  | cons op ops ih =>
    intro store hwk id r hr
    obtain ⟨mid, hmid, ho1, hc1⟩ :=
      ih (VC.applyOp store op) (VC_applyOp_wellKeyed store op hwk) id r hr
    obtain ⟨saving, hsav, ho2, hc2⟩ := VC_applyOp_preserves store op hwk id mid hmid
    exact ⟨saving, hsav, ho1.trans ho2, hc1.trans hc2⟩

theorem VB_applyOp_shape (store : StableBTreeMap Saving) (op : VB.Op) :
    VB.applyOp store op = store ∨
    ∃ (id0 : String) (saving u : Saving), store.get id0 = some saving ∧
      u.createdAt = saving.createdAt ∧
      VB.applyOp store op = store.insert id0 u := by
  cases op with
  | update id0 payload now =>
    cases hg : store.get id0 with
    | none =>
      exact Or.inl (by simp [VB.applyOp, VB.updateSaving, VB.getSavingById, hg])
    | some saving =>
      refine Or.inr ⟨id0, saving,
        { saving with
          username := payload.username, specifiedYear := payload.specifiedYear,
          amount := payload.amount, noOfDays := payload.noOfDays,
          updatedAt := some now }, hg, rfl, ?_⟩
      simp [VB.applyOp, VB.updateSaving, VB.getSavingById, hg]
  | fund id0 amount now =>
    cases hg : store.get id0 with
    | none =>
      exact Or.inl (by simp [VB.applyOp, VB.fundSaving, VB.getSavingById, hg])
    | some saving =>
      refine Or.inr ⟨id0, saving,
        { saving with
          amount := saving.amount + amount, updatedAt := some now }, hg, rfl, ?_⟩
      simp [VB.applyOp, VB.fundSaving, VB.getSavingById, hg]
  | withdraw id0 now =>
    cases hg : store.get id0 with
    | none =>
      exact Or.inl (by simp [VB.applyOp, VB.withdrawSaving, VB.getSavingById, hg])
    | some saving =>
      refine Or.inr ⟨id0, saving,
        { saving with amount := 0, updatedAt := some now }, hg, rfl, ?_⟩
      simp [VB.applyOp, VB.withdrawSaving, VB.getSavingById, hg]
  | transfer id0 recipient now =>
    cases hg : store.get id0 with
    | none =>
      exact Or.inl (by simp [VB.applyOp, VB.transferSaving, VB.getSavingById, hg])
    | some saving =>
      refine Or.inr ⟨id0, saving,
        { saving with username := recipient, updatedAt := some now }, hg, rfl, ?_⟩
      simp [VB.applyOp, VB.transferSaving, VB.getSavingById, hg]

theorem VB_applyOp_createdAt (store : StableBTreeMap Saving) (op : VB.Op) :
    ∀ id r, (VB.applyOp store op).get id = some r →
      ∃ saving, store.get id = some saving ∧ r.createdAt = saving.createdAt := by
  rcases VB_applyOp_shape store op with h | ⟨id0, saving, u, hg, hcr, happ⟩
  · intro id r hr
    rw [h] at hr
    exact ⟨r, hr, rfl⟩
  · intro id r hr
    rw [happ, StableBTreeMap.get_insert] at hr
    by_cases hk : id0 = id
    · rw [if_pos hk] at hr
      cases Option.some.inj hr
      exact ⟨saving, hk ▸ hg, hcr⟩
    · rw [if_neg hk] at hr
      exact ⟨r, hr, rfl⟩

theorem VB_applyOps_createdAt (ops : List VB.Op) :
    ∀ store, ∀ id r, (VB.applyOps store ops).get id = some r →
      ∃ saving, store.get id = some saving ∧ r.createdAt = saving.createdAt := by
  induction ops with
  | nil =>
    intro store id r hr
    exact ⟨r, hr, rfl⟩
  | cons op ops ih =>
    intro store id r hr
    obtain ⟨mid, hmid, hc1⟩ := ih (VB.applyOp store op) id r hr
    obtain ⟨saving, hsav, hc2⟩ := VB_applyOp_createdAt store op id mid hmid
    exact ⟨saving, hsav, hc1.trans hc2⟩

theorem VC_sampleStore_wellKeyed : VC.WellKeyed VC.sampleStore := by
  intro k saving h
  simp only [VC.sampleStore, StableBTreeMap.get] at h
  by_cases hk : "s1" = k
  · rw [if_pos hk] at h
    have h2 := Option.some.inj h
    subst h2
    rw [← hk]
    rfl
  · rw [if_neg hk] at h
    cases h

/-! ### Claim C7 -/

/-- C7: owner and creation-time immutability. In the ownership revision,
`createSaving` sets `owner` to the creating caller and `createdAt` to the
creation time (first conjunct); and after any sequence of `fundSaving` /
`withdrawSaving` calls — the mutating operations this revision has — every
record found in the store descends from a record that was already present
before the sequence, with the same `owner` and the same `createdAt` (second
conjunct, assuming each record is keyed under its own `id`, as the canister
keeps them). In the first `part_000` revision, any sequence of `updateSaving`,
`fundSaving`, `withdrawSaving` and `transferSaving` calls likewise preserves
every record's `createdAt` (third conjunct; that revision has no `owner`
field). -/
theorem C7_owner_createdAt_immutable :
    (∀ caller uuid now payload store,
      (VC.createSaving caller uuid now payload store).1 =
        Result.ok
          { id := uuid, owner := caller, username := payload.username,
            specifiedYear := payload.specifiedYear, amount := payload.amount,
            noOfDays := payload.noOfDays, createdAt := now,
            updatedAt := none }) ∧
    (∀ ops store, VC.WellKeyed store →
      ∀ id r, (VC.applyOps store ops).get id = some r →
        ∃ saving, store.get id = some saving ∧ r.owner = saving.owner ∧
          r.createdAt = saving.createdAt) ∧
    (∀ ops store id r, (VB.applyOps store ops).get id = some r →
      ∃ saving, store.get id = some saving ∧
        r.createdAt = saving.createdAt) := by
  refine ⟨?_, ?_, ?_⟩
  · intro caller uuid now payload store
    rfl
  · intro ops store hwk id r hr
    exact VC_applyOps_preserves ops store hwk id r hr
  · intro ops store id r hr
    exact VB_applyOps_createdAt ops store id r hr

/-- Witness for C7: creation by `P1`, then the one-call sequence funding `s1`
by its owner in the ownership revision, and the two-call sequence funding then
transferring `s1` in the first `part_000` revision: the surviving records keep
the owner and creation time of the original `s1` record. -/
theorem C7_owner_createdAt_immutable_witness :
    (VC.createSaving "P1" "u1" 3
        { username := "alice", specifiedYear := 1, amount := 100, noOfDays := 30 }
        VC.sampleStore).1 =
      Result.ok
        { id := "u1", owner := "P1", username := "alice", specifiedYear := 1,
          amount := 100, noOfDays := 30, createdAt := 3, updatedAt := none } ∧
    ({ VC.sampleRec with amount := VC.sampleRec.amount + 5 } : VC.Saving).owner =
      VC.sampleRec.owner ∧
    ({ VC.sampleRec with amount := VC.sampleRec.amount + 5 } : VC.Saving).createdAt =
      VC.sampleRec.createdAt ∧
    ({ sampleRecA with
       amount := sampleRecA.amount + 5, username := "carol",
       updatedAt := some 9 } : Saving).createdAt = sampleRecA.createdAt := by
  refine ⟨C7_owner_createdAt_immutable.1 "P1" "u1" 3
    { username := "alice", specifiedYear := 1, amount := 100, noOfDays := 30 }
    VC.sampleStore, ?_, ?_, ?_⟩
  · obtain ⟨saving, hg, ho, _⟩ :=
      C7_owner_createdAt_immutable.2.1 [VC.Op.fund "P1" "s1" 5] VC.sampleStore
        VC_sampleStore_wellKeyed "s1"
        { VC.sampleRec with amount := VC.sampleRec.amount + 5 } rfl
    have hg2 : some VC.sampleRec = some saving := hg
    have hs := Option.some.inj hg2
    subst hs
    exact ho
  · obtain ⟨saving, hg, _, hc⟩ :=
      C7_owner_createdAt_immutable.2.1 [VC.Op.fund "P1" "s1" 5] VC.sampleStore
        VC_sampleStore_wellKeyed "s1"
        { VC.sampleRec with amount := VC.sampleRec.amount + 5 } rfl
    have hg2 : some VC.sampleRec = some saving := hg
    have hs := Option.some.inj hg2
    subst hs
    exact hc
  · obtain ⟨saving, hg, hc⟩ :=
      C7_owner_createdAt_immutable.2.2
        [VB.Op.fund "s1" 5 8, VB.Op.transfer "s1" "carol" 9] sampleStoreA "s1"
        { sampleRecA with
          amount := sampleRecA.amount + 5, username := "carol",
          updatedAt := some 9 } rfl
    have hg2 : some sampleRecA = some saving := hg
    have hs := Option.some.inj hg2
    subst hs
    exact hc

/-! ### Non-negativity lemmas -/

theorem nonNeg_insert {store : StableBTreeMap Saving} {k : String} {u : Saving}
    (h : VB.NonNeg store) (hu : 0 ≤ u.amount) : VB.NonNeg (store.insert k u) := by
  intro p hp
  rcases StableBTreeMap.mem_insert p hp with h1 | h1
  · rw [h1]
    exact hu
  · exact h p h1

theorem VB_applyLOp_nonNeg (store : StableBTreeMap Saving) (op : VB.LOp)
    (hv : VB.ValidLOp op) (h : VB.NonNeg store) :
    VB.NonNeg (VB.applyLOp store op) := by
  cases op with
  | create uuid now payload =>
    have happ : VB.applyLOp store (VB.LOp.create uuid now payload) =
        store.insert uuid
          { id := uuid, username := payload.username,
            specifiedYear := payload.specifiedYear, amount := payload.amount,
            noOfDays := payload.noOfDays, createdAt := now,
            updatedAt := none } := rfl
    rw [happ]
    exact nonNeg_insert h hv
  | update id0 payload now =>
    cases hg : store.get id0 with
    | none =>
      have happ : VB.applyLOp store (VB.LOp.update id0 payload now) = store := by
        simp [VB.applyLOp, VB.updateSaving, VB.getSavingById, hg]
      rwa [happ]
    | some saving =>
      have happ : VB.applyLOp store (VB.LOp.update id0 payload now) =
          store.insert id0
            { saving with
              username := payload.username,
              specifiedYear := payload.specifiedYear,
              amount := payload.amount, noOfDays := payload.noOfDays,
              updatedAt := some now } := by
        simp [VB.applyLOp, VB.updateSaving, VB.getSavingById, hg]
      rw [happ]
      exact nonNeg_insert h hv
  | fund id0 amount now =>
    cases hg : store.get id0 with
    | none =>
      have happ : VB.applyLOp store (VB.LOp.fund id0 amount now) = store := by
        simp [VB.applyLOp, VB.fundSaving, VB.getSavingById, hg]
      rwa [happ]
    | some saving =>
      have happ : VB.applyLOp store (VB.LOp.fund id0 amount now) =
          store.insert id0
            { saving with
              amount := saving.amount + amount, updatedAt := some now } := by
        simp [VB.applyLOp, VB.fundSaving, VB.getSavingById, hg]
      rw [happ]
      have hsav : 0 ≤ saving.amount := h (id0, saving) (StableBTreeMap.get_mem hg)
      exact nonNeg_insert h (add_nonneg hsav hv)
  | withdraw id0 now =>
    cases hg : store.get id0 with
    | none =>
      have happ : VB.applyLOp store (VB.LOp.withdraw id0 now) = store := by
        simp [VB.applyLOp, VB.withdrawSaving, VB.getSavingById, hg]
      rwa [happ]
    | some saving =>
      have happ : VB.applyLOp store (VB.LOp.withdraw id0 now) =
          store.insert id0
            { saving with amount := 0, updatedAt := some now } := by
        simp [VB.applyLOp, VB.withdrawSaving, VB.getSavingById, hg]
      rw [happ]
      exact nonNeg_insert h le_rfl
  | transfer id0 recipient now =>
    cases hg : store.get id0 with
    | none =>
      have happ : VB.applyLOp store (VB.LOp.transfer id0 recipient now) = store := by
        simp [VB.applyLOp, VB.transferSaving, VB.getSavingById, hg]
      rwa [happ]
    | some saving =>
      have happ : VB.applyLOp store (VB.LOp.transfer id0 recipient now) =
          store.insert id0
            { saving with username := recipient, updatedAt := some now } := by
        simp [VB.applyLOp, VB.transferSaving, VB.getSavingById, hg]
      rw [happ]
      have hsav : 0 ≤ saving.amount := h (id0, saving) (StableBTreeMap.get_mem hg)
      exact nonNeg_insert h hsav
  | delete id0 =>
    cases hg : store.get id0 with
    | none =>
      have happ : VB.applyLOp store (VB.LOp.delete id0) = store := by
        simp [VB.applyLOp, VB.deleteSaving, StableBTreeMap.remove, hg]
      rwa [happ]
    | some saving =>
      have happ : VB.applyLOp store (VB.LOp.delete id0) = store.erase id0 := by
        simp [VB.applyLOp, VB.deleteSaving, StableBTreeMap.remove, hg]
      rw [happ]
      intro p hp
      exact h p ((StableBTreeMap.erase_sublist store id0).subset hp)

theorem VB_applyLOps_nonNeg (ops : List VB.LOp) :
    ∀ store, (∀ op ∈ ops, VB.ValidLOp op) → VB.NonNeg store →
      VB.NonNeg (VB.applyLOps store ops) := by
  induction ops with
  | nil =>
    intro store _ h
    exact h
  | cons op ops ih =>
    intro store hv h
    exact ih (VB.applyLOp store op)
      (fun o ho => hv o (List.mem_cons_of_mem _ ho))
      (VB_applyLOp_nonNeg store op (hv op (List.mem_cons_self _ _)) h)

/-! ### Claim C8 -/

/-- C8, counterexample: the claim states that in every reachable store every
record's amount is non-negative. The code never validates inputs: a single
`createSaving` call with payload amount `-5` on the empty store succeeds and
leaves a stored record whose amount is `-5 < 0`. -/
theorem C8_counterexample :
    (VB.createSaving "u1" 0
        { username := "alice", specifiedYear := 1, amount := -5, noOfDays := 30 }
        []).1 =
      Result.ok
        { id := "u1", username := "alice", specifiedYear := 1, amount := -5,
          noOfDays := 30, createdAt := 0, updatedAt := none } ∧
    ((VB.createSaving "u1" 0
        { username := "alice", specifiedYear := 1, amount := -5, noOfDays := 30 }
        []).2).get "u1" =
      some
        { id := "u1", username := "alice", specifiedYear := 1, amount := -5,
          noOfDays := 30, createdAt := 0, updatedAt := none } ∧
    ({ id := "u1", username := "alice", specifiedYear := 1, amount := -5,
       noOfDays := 30, createdAt := 0, updatedAt := none } : Saving).amount <
      0 := by
  refine ⟨rfl, rfl, by decide⟩

/-- C8 (amended): provided every `createSaving`/`updateSaving` payload amount
and every `fundSaving` delta is non-negative (the spec's input contract — the
code itself performs no validation, as the counterexample shows), every record
in a store reached by any sequence of ledger calls of the first `part_000`
revision keeps a non-negative amount; and a successful `withdrawSaving` sets
the amount to exactly 0 while leaving the record present in the store under
its id, in both the first `part_000` revision and the ownership revision. -/
theorem C8_amended_nonneg :
    (∀ ops store, (∀ op ∈ ops, VB.ValidLOp op) → VB.NonNeg store →
      VB.NonNeg (VB.applyLOps store ops)) ∧
    (∀ id now store (saving : Saving), store.get id = some saving →
      (VB.withdrawSaving id now store).1 =
        Result.ok { saving with amount := 0, updatedAt := some now } ∧
      ((VB.withdrawSaving id now store).2).get id =
        some { saving with amount := 0, updatedAt := some now }) ∧
    (∀ caller id store (saving : VC.Saving), store.get id = some saving →
      saving.id = id → saving.owner = caller →
      (VC.withdrawSaving caller id store).1 =
        Result.ok { saving with amount := 0 } ∧
      ((VC.withdrawSaving caller id store).2).get id =
        some { saving with amount := 0 }) := by
  refine ⟨?_, ?_, ?_⟩
  · intro ops store hv h
    exact VB_applyLOps_nonNeg ops store hv h
  · intro id now store saving hget
    constructor
    · simp [VB.withdrawSaving, VB.getSavingById, hget]
    · simp [VB.withdrawSaving, VB.getSavingById, hget, StableBTreeMap.get_insert]
  · intro caller id store saving hget hid how
    constructor
    · simp [VC.withdrawSaving, VC.getSavingById, hget, how]
    · simp [VC.withdrawSaving, VC.getSavingById, hget, how, hid,
        StableBTreeMap.get_insert]

/-- Witness for C8 (amended): a two-call valid sequence (fund 50 then
withdraw) on the sample store, and concrete successful withdrawals. -/
theorem C8_amended_nonneg_witness :
    VB.NonNeg (VB.applyLOps sampleStoreA
      [VB.LOp.fund "s1" 50 7, VB.LOp.withdraw "s1" 8]) ∧
    (VB.withdrawSaving "s1" 8 sampleStoreA).1 =
      Result.ok { sampleRecA with amount := 0, updatedAt := some 8 } ∧
    (VC.withdrawSaving "P1" "s1" VC.sampleStore).1 =
      Result.ok { VC.sampleRec with amount := 0 } :=
  ⟨C8_amended_nonneg.1 [VB.LOp.fund "s1" 50 7, VB.LOp.withdraw "s1" 8]
     sampleStoreA
     (by
       intro op hop
       rcases List.mem_cons.mp hop with h1 | h1
       · rw [h1]
         show (0:ℚ) ≤ 50
         decide
       · rcases List.mem_cons.mp h1 with h2 | h2
         · rw [h2]
           exact trivial
         · cases h2)
     (by
       intro p hp
       rcases List.mem_cons.mp hp with h1 | h1
       · rw [h1]
         show (0:ℚ) ≤ sampleRecA.amount
         decide
       · cases h1),
   (C8_amended_nonneg.2.1 "s1" 8 sampleStoreA sampleRecA rfl).1,
   (C8_amended_nonneg.2.2 "P1" "s1" VC.sampleStore VC.sampleRec rfl rfl rfl).1⟩

/-! ### Claim C10 -/

theorem deleteNotFound_head (id : String) :
    ("couldn" ++ apos ++ "t delete saving with id=" ++ id ++ ".").data.head? =
      some 'c' := by
  apply data_head_append
  apply data_head_append
  apply data_head_append
  apply data_head_append
  rfl

theorem withdrawNotFound_head (id : String) :
    ("Unable to withdraw savings with id=" ++ id).data.head? = some 'U' := by
  apply data_head_append
  rfl

/-- C10: in the admin+whitelist revision authorization is decided before
existence. A non-admin caller of `deleteSaving`, and a caller of
`withdrawSaving` that is neither admin nor whitelisted, receive the
Unauthorized error even when no record with the requested id exists (first
two conjuncts); and whenever a call comes back with the not-found error, the
caller was authorized — admin for deletion, admin or whitelisted for
withdrawal (last two conjuncts). -/
theorem C10_auth_before_existence :
    (∀ caller cfg id store, store.get id = none →
      caller ≠ cfg.adminPrincipal →
      (VA.deleteSaving caller cfg id store).1 =
        Result.err "You are not authorized to delete a saving") ∧
    (∀ caller cfg now id store, store.get id = none →
      caller ≠ cfg.adminPrincipal →
      cfg.whitelistedAccounts.contains caller = false →
      (VA.withdrawSaving caller cfg now id store).1 =
        Result.err "You are not authorized to withdraw a saving") ∧
    (∀ caller cfg id store,
      (VA.deleteSaving caller cfg id store).1 =
        Result.err ("couldn" ++ apos ++ "t delete saving with id=" ++ id ++ ".") →
      caller = cfg.adminPrincipal) ∧
    (∀ caller cfg now id store,
      (VA.withdrawSaving caller cfg now id store).1 =
        Result.err ("Unable to withdraw savings with id=" ++ id) →
      caller = cfg.adminPrincipal ∨
        cfg.whitelistedAccounts.contains caller = true) := by
  refine ⟨?_, ?_, ?_, ?_⟩
  · intro caller cfg id store _ h
    simp [VA.deleteSaving, h]
  · intro caller cfg now id store _ h1 h2
    have h3 : ¬ (caller ∈ cfg.whitelistedAccounts) := by simpa using h2
    simp [VA.withdrawSaving, VA.isWhitelisted, h1, h3]
  · intro caller cfg id store hres
    by_cases h : caller = cfg.adminPrincipal
    · exact h
    · exfalso
      have hres2 : (VA.deleteSaving caller cfg id store).1 =
          Result.err "You are not authorized to delete a saving" := by
        simp [VA.deleteSaving, h]
      rw [hres2] at hres
      have heq := Result.err.inj hres
      have hY : ("You are not authorized to delete a saving").data.head? =
          some 'Y' := rfl
      exact string_ne_of_head hY (deleteNotFound_head id) (by decide) heq
  · intro caller cfg now id store hres
    by_cases h : caller = cfg.adminPrincipal ∨ VA.isWhitelisted cfg caller
    · rcases h with h | h
      · exact Or.inl h
      · right
        by_cases hc : cfg.whitelistedAccounts.contains caller = true
        · exact hc
        · exfalso
          rw [VA.isWhitelisted] at h
          rw [if_neg ?_] at h
          · cases h
          · intro hcontra
            exact hc hcontra
    · exfalso
      have hres2 : (VA.withdrawSaving caller cfg now id store).1 =
          Result.err "You are not authorized to withdraw a saving" := by
        simp [VA.withdrawSaving, h]
      rw [hres2] at hres
      have heq := Result.err.inj hres
      have hY : ("You are not authorized to withdraw a saving").data.head? =
          some 'Y' := rfl
      exact string_ne_of_head hY (withdrawNotFound_head id) (by decide) heq

/-- Witness for C10: on the sample store (which has no record `zz`), the
stranger `P2` is rejected as unauthorized by both operations, the admin's
delete of `zz` reports not-found, and the whitelisted `P-wl` withdrawing `zz`
reports not-found, witnessing an authorized caller. -/
theorem C10_auth_before_existence_witness :
    (VA.deleteSaving "P2" sampleCfg "zz" sampleStoreA).1 =
      Result.err "You are not authorized to delete a saving" ∧
    (VA.withdrawSaving "P2" sampleCfg 0 "zz" sampleStoreA).1 =
      Result.err "You are not authorized to withdraw a saving" ∧
    "P-admin" = sampleCfg.adminPrincipal ∧
    ("P-wl" = sampleCfg.adminPrincipal ∨
      sampleCfg.whitelistedAccounts.contains "P-wl" = true) :=
  ⟨C10_auth_before_existence.1 "P2" sampleCfg "zz" sampleStoreA rfl (by decide),
   C10_auth_before_existence.2.1 "P2" sampleCfg 0 "zz" sampleStoreA rfl
     (by decide) rfl,
   C10_auth_before_existence.2.2.1 "P-admin" sampleCfg "zz" sampleStoreA rfl,
   C10_auth_before_existence.2.2.2 "P-wl" sampleCfg 0 "zz" sampleStoreA rfl⟩
